import Mathlib

/-!
Verification of the constraint-analysis handler in
`netlify/functions/extract-constraints.js` of the point-extractor repository.

The handler's data is JSON produced by `JSON.parse`, so we embed JavaScript
values as the inductive `JVal` (numbers as exact rationals; `JSON.parse`
never produces `NaN`, `undefined` or functions).  JavaScript objects are
association lists of fields in insertion order; objects coming out of
`JSON.parse` have pairwise distinct keys.  An absent property (JS
`undefined`) is represented by `Option.none` at each access site.
`uuidv4()` is modelled by injected supplies of identifier strings, one
supply per call site, indexed by element position.  Exceptions thrown and
caught by the handler (JS `TypeError` and friends) are modelled with
`Except String`; the carried message texts are abstractions, never
inspected.
-/

inductive JVal where
  | null : JVal
  | bool : Bool → JVal
  | num : ℚ → JVal
  | str : String → JVal
  | arr : List JVal → JVal
  | obj : List (String × JVal) → JVal
deriving Repr

/-- JavaScript truthiness of a defined value (`NaN` cannot arise from
`JSON.parse`, so a number is falsy exactly when it is `0`). -/
def jsTruthy : JVal → Bool
  | .null => false
  | .bool b => b
  | .num q => q != 0
  | .str s => s != ""
  | .arr _ => true
  | .obj _ => true

/-- JavaScript `x || d` where `x` is a property-access result
(`none` is `undefined`). -/
def jsOr (x : Option JVal) (d : JVal) : JVal :=
  match x with
  | some v => if jsTruthy v then v else d
  | none => d

/-- Property access `v[k]` on a non-`null` value: a lookup on objects,
`undefined` on every other value.  (Access on `null` throws; the callers
below branch on `null` before using this.) -/
def jGetField : JVal → String → Option JVal
  | .obj fs, k => fs.lookup k
  | _, _ => none

/-- JavaScript object-literal field override `\x7b...spread, k: v\x7d`:
replace the value of the first occurrence of `k` in place, or append the
field if `k` is absent. -/
def setField (fs : List (String × JVal)) (k : String) (v : JVal) :
    List (String × JVal) :=
  match fs with
  | [] => [(k, v)]
  | (k2, v2) :: rest =>
    if k2 == k then (k2, v) :: rest else (k2, v2) :: setField rest k v

/-- JS `xs.map((x, i) => g(i, x))`, the index made explicit. -/
def mapWithIdx (g : Nat → α → β) : Nat → List α → List β
  | _, [] => []
  | i, a :: as => g i a :: mapWithIdx g (i + 1) as

/-- JavaScript spread `\x7b...v\x7d`: the own enumerable fields of `v`
(objects give their fields, strings and arrays give indexed entries, all
primitives give nothing). -/
def jsSpreadObj : JVal → List (String × JVal)
  | .obj fs => fs
  | .str s => mapWithIdx (fun i c => (toString i, JVal.str (String.singleton c))) 0 s.data
  | .arr xs => mapWithIdx (fun i v => (toString i, v)) 0 xs
  | _ => []

/-! ### Character-list models of the JavaScript string operations used -/

/-- Whether `sep` occurs at the start of `s`. -/
def leadsWith : List Char → List Char → Bool
  | [], _ => true
  | _ :: _, [] => false
  | a :: as, b :: bs => a == b && leadsWith as bs

/-- Whether `sep` occurs anywhere in `s` (JS `s.includes(sep)`). -/
def includesL (sep : List Char) : List Char → Bool
  | [] => leadsWith sep []
  | c :: rest => leadsWith sep (c :: rest) || includesL sep rest

/-- Everything strictly before the first occurrence of `sep` in `s`
(the whole of `s` when `sep` does not occur): JS `s.split(sep)[0]`. -/
def beforeFirst (sep : List Char) : List Char → List Char
  | [] => []
  | c :: rest =>
    if leadsWith sep (c :: rest) then [] else c :: beforeFirst sep rest

/-- Everything strictly after the first occurrence of `sep` in `s`
(empty when `sep` does not occur; the code only uses this under an
`includes` guard, where the occurrence exists). -/
def afterFirst (sep : List Char) : List Char → List Char
  | [] => []
  | c :: rest =>
    if leadsWith sep (c :: rest) then List.drop (sep.length - 1) rest
    else afterFirst sep rest

/-- JS `s.trim()` (ECMAScript trims WhiteSpace and LineTerminator; for the
characters that occur here this coincides with `Char.isWhitespace`). -/
def trimL (s : List Char) : List Char :=
  ((s.dropWhile Char.isWhitespace).reverse.dropWhile Char.isWhitespace).reverse

def trimS (s : String) : String := (trimL s.data).asString

def fenceMark : List Char := "```".data
def fenceJsonMark : List Char := "```json".data

/-- The code-fence stripping step of the handler (lines 191-195):
`aiOutput.split(X)[1]` is the chunk between the first and second
occurrence of `X` (or everything after the first occurrence when there is
no second one), hence `beforeFirst X (afterFirst X s)`; the following
`.split(Y)[0]` is `beforeFirst Y`. -/
def stripFenceL (s : List Char) : List Char :=
  if includesL fenceJsonMark s then
    trimL (beforeFirst fenceMark (beforeFirst fenceJsonMark (afterFirst fenceJsonMark s)))
  else if includesL fenceMark s then
    trimL (beforeFirst fenceMark (beforeFirst fenceMark (afterFirst fenceMark s)))
  else s

def stripFence (s : String) : String := (stripFenceL s.data).asString

/-! ### The fallback path (parse failure, lines 203-219) -/

/-- JS `s.split('\n')`. -/
def splitLinesAux : List Char → List Char → List (List Char)
  | [], acc => [acc.reverse]
  | c :: rest, acc =>
    if c == '\n' then acc.reverse :: splitLinesAux rest []
    else splitLinesAux rest (c :: acc)

def splitLines (s : List Char) : List (List Char) := splitLinesAux s []

def isBulletChar (c : Char) : Bool := c == '-' || c == '*' || c == '•'

/-- The filter `line.trim().match(/^[-*•]/)`: the trimmed line starts with
a bullet marker. -/
def isBulletLine (line : List Char) : Bool :=
  match trimL line with
  | [] => false
  | c :: _ => isBulletChar c

/-- `line.replace(/^[-*•]\s/, '')`: drop a leading marker and the single
following whitespace character, when the raw (untrimmed) line starts with
exactly that; otherwise leave the line unchanged. -/
def stripBulletMarker (line : List Char) : List Char :=
  match line with
  | c :: w :: rest =>
    if isBulletChar c && w.isWhitespace then rest else line
  | _ => line

/-- One constraint object built by the fallback path for a bullet line. -/
def fallbackConstraint (inputText : String) (fresh : String)
    (line : List Char) : JVal :=
  JVal.obj [("id", JVal.str fresh),
            ("text", JVal.str (trimL (stripBulletMarker line)).asString),
            ("sourceStart", JVal.num 0),
            ("sourceEnd", JVal.num (inputText.length : ℚ))]

def fallbackConstraints (aiOutput inputText : String) (fF : Nat → String) :
    List JVal :=
  mapWithIdx (fun i line => fallbackConstraint inputText (fF i) line) 0
    ((splitLines aiOutput.data).filter isBulletLine)

/-- The whole fallback analysis result (lines 214-219). -/
def fallbackResult (aiOutput inputText : String) (fF : Nat → String) : JVal :=
  JVal.obj [("constraints", JVal.arr (fallbackConstraints aiOutput inputText fF)),
            ("redundantGroups", JVal.arr []),
            ("contradictions", JVal.arr []),
            ("originalText", JVal.str inputText)]

/-! ### Per-element post-processing (lines 231-248) -/

/-- `(constraint) => (\x7b ...constraint, id: constraint.id || uuidv4(),
sourceStart: constraint.sourceStart || 0,
sourceEnd: constraint.sourceEnd || inputText.length \x7d)`;
property access on `null` throws. -/
def normConstraint (inputText : String) (fresh : String) (c : JVal) :
    Except String JVal :=
  match c with
  | .null => .error "TypeError: cannot read properties of null"
  | _ => .ok (JVal.obj
      (setField
        (setField
          (setField (jsSpreadObj c) "id" (jsOr (jGetField c "id") (JVal.str fresh)))
          "sourceStart" (jsOr (jGetField c "sourceStart") (JVal.num 0)))
        "sourceEnd" (jsOr (jGetField c "sourceEnd") (JVal.num (inputText.length : ℚ)))))

/-- `(group) => (\x7b ...group, id: group.id || uuidv4(),
similarity: group.similarity || 0.8 \x7d)`. -/
def normGroup (fresh : String) (g : JVal) : Except String JVal :=
  match g with
  | .null => .error "TypeError: cannot read properties of null"
  | _ => .ok (JVal.obj
      (setField
        (setField (jsSpreadObj g) "id" (jsOr (jGetField g "id") (JVal.str fresh)))
        "similarity" (jsOr (jGetField g "similarity") (JVal.num 0.8))))

/-- `(contradiction) => (\x7b ...contradiction, id: contradiction.id ||
uuidv4(), confidence: contradiction.confidence || 0.8 \x7d)`. -/
def normContradiction (fresh : String) (d : JVal) : Except String JVal :=
  match d with
  | .null => .error "TypeError: cannot read properties of null"
  | _ => .ok (JVal.obj
      (setField
        (setField (jsSpreadObj d) "id" (jsOr (jGetField d "id") (JVal.str fresh)))
        "confidence" (jsOr (jGetField d "confidence") (JVal.num 0.8))))

/-- Element-wise mapping of a JS array callback, propagating the first
thrown exception; the index feeds the identifier supply. -/
def mapElems (f : Nat → JVal → Except String JVal) :
    Nat → List JVal → Except String (List JVal)
  | _, [] => .ok []
  | i, x :: xs =>
    match f i x with
    | .error e => .error e
    | .ok y =>
      match mapElems f (i + 1) xs with
      | .error e => .error e
      | .ok ys => .ok (y :: ys)

/-- JS `v.map(f)`: maps over an array, throws `TypeError` on any other
value (including truthy non-arrays such as strings and numbers). -/
def jsMapArr (f : Nat → JVal → Except String JVal) :
    JVal → Except String (List JVal)
  | .arr xs => mapElems f 0 xs
  | _ => .error "TypeError: map is not a function"

/-! ### The reconciliation step (lines 197-248) -/

/-- The part of the reconciliation after the parse attempt: the top-level
defaulting object literal (all four property accesses throw when the
value is `null`) followed by the three `.map` passes. -/
def reconcileBase (base : JVal) (inputText : String)
    (fC fG fD : Nat → String) : Except String JVal :=
  match base with
  | .null => .error "TypeError: cannot read properties of null"
  | _ =>
    let constraints := jsOr (jGetField base "constraints") (JVal.arr [])
    let redundantGroups := jsOr (jGetField base "redundantGroups") (JVal.arr [])
    let contradictions := jsOr (jGetField base "contradictions") (JVal.arr [])
    let originalText := jsOr (jGetField base "originalText") (JVal.str inputText)
    match jsMapArr (fun i c => normConstraint inputText (fC i) c) constraints with
    | .error e => .error e
    | .ok cs2 =>
      match jsMapArr (fun i g => normGroup (fG i) g) redundantGroups with
      | .error e => .error e
      | .ok gs2 =>
        match jsMapArr (fun i d => normContradiction (fD i) d) contradictions with
        | .error e => .error e
        | .ok ds2 =>
          .ok (JVal.obj [("constraints", JVal.arr cs2),
                         ("redundantGroups", JVal.arr gs2),
                         ("contradictions", JVal.arr ds2),
                         ("originalText", originalText)])

/-- Reconciliation of the model answer: `parsed` is the outcome of
`JSON.parse(aiOutput)` (`none` when it throws), and `fF/fC/fG/fD` are the
`uuidv4` supplies of the four call sites.  Mirrors the `try/catch` of
lines 197-220 (parse failure replaced by the fallback result) followed by
the repair passes of lines 222-248. -/
def reconcile (parsed : Option JVal) (aiOutput inputText : String)
    (fF fC fG fD : Nat → String) : Except String JVal :=
  reconcileBase
    (match parsed with
     | some j => j
     | none => fallbackResult aiOutput inputText fF)
    inputText fC fG fD

/-! ### The provider registry and the HTTP handler -/

structure ProviderInfo where
  endpoint : String
  model : String
  envKey : String
deriving Repr

def AI_PROVIDERS : List (String × ProviderInfo) :=
  [("xAI (Grok)",
    ⟨"https://api.x.ai/v1/chat/completions", "grok-3", "XAI_API_KEY"⟩),
   ("OpenAI",
    ⟨"https://api.openai.com/v1/chat/completions", "gpt-4o-mini", "OPENAI_API_KEY"⟩),
   ("Anthropic (Claude)",
    ⟨"https://api.anthropic.com/v1/messages", "claude-3-haiku-20240307", "ANTHROPIC_API_KEY"⟩),
   ("Google (Gemini)",
    ⟨"https://generativelanguage.googleapis.com/v1beta/models/gemini-1.5-flash:generateContent",
     "gemini-1.5-flash", "GOOGLE_API_KEY"⟩),
   ("Cohere",
    ⟨"https://api.cohere.ai/v1/chat", "command-r-plus", "COHERE_API_KEY"⟩)]

structure HttpResponse where
  statusCode : Nat
  headers : List (String × String)
  body : JVal
deriving Repr

/-- The headers every branch of the handler attaches. -/
def baseHeaders : List (String × String) :=
  [("Content-Type", "application/json"),
   ("Access-Control-Allow-Origin", "*")]

/-- The catch-all 500 response (lines 263-276). -/
def err500 (msg : String) : HttpResponse :=
  ⟨500, baseHeaders,
   JVal.obj [("error", JVal.str msg),
             ("constraints", JVal.arr []),
             ("redundantGroups", JVal.arr []),
             ("contradictions", JVal.arr []),
             ("originalText", JVal.str "")]⟩

/-- The ambient state of one handler invocation: the HTTP method, the
parsed request body (`none` models `JSON.parse(event.body)` throwing; a
well-formed body is assumed to carry two strings), the environment
variables, whether the outbound fetch returned a success status, the text
the provider extraction yielded, and a `JSON.parse` oracle for the model
answer (`none` = throws). -/
structure Env where
  httpMethod : String
  body : Option (String × String)
  envVars : String → Option String
  fetchOk : Bool
  rawAnswer : String
  jparse : String → Option JVal

/-- The Netlify function `exports.handler`, with the network exchange
abstracted into `Env`.  Response bodies are kept as `JVal` (the code
serializes them with `JSON.stringify`). -/
def handler (env : Env) (fF fC fG fD : Nat → String) : HttpResponse :=
  if env.httpMethod ≠ "POST" then
    ⟨405, baseHeaders, JVal.obj [("error", JVal.str "Method not allowed")]⟩
  else
    match env.body with
    | none => err500 "SyntaxError: malformed request body"
    | some (providerName, inputText) =>
      match AI_PROVIDERS.lookup providerName with
      | none => ⟨400, baseHeaders, JVal.obj [("error", JVal.str "Invalid provider")]⟩
      | some provider =>
        if (env.envVars provider.envKey).getD "" = "" then
          ⟨500, baseHeaders,
           JVal.obj [("error", JVal.str (providerName ++ " API key not configured"))]⟩
        else if !env.fetchOk then
          err500 "API request failed"
        else
          let aiOutput := stripFence (trimS env.rawAnswer)
          match reconcile (env.jparse aiOutput) aiOutput inputText fF fC fG fD with
          | .error e => err500 e
          | .ok result =>
            ⟨200,
             baseHeaders ++
               [("Access-Control-Allow-Headers", "Content-Type"),
                ("Access-Control-Allow-Methods", "POST, OPTIONS")],
             result⟩

/-! ## Helper lemmas -/

theorem lookup_setField_same (fs : List (String × JVal)) (k : String) (v : JVal) :
    (setField fs k v).lookup k = some v := by
  induction fs with
  | nil => simp [setField, List.lookup]
  | cons h t ih =>
    obtain ⟨k2, v2⟩ := h
    by_cases hk : k2 = k
    · simp [setField, hk, List.lookup]
    · simp only [setField, List.lookup]
      rw [if_neg (by simpa using hk)]
      simpa [List.lookup, (by simpa using Ne.symm hk : (k == k2) = false)] using ih

theorem lookup_setField_ne (fs : List (String × JVal)) (k k2 : String) (v : JVal)
    (h : k ≠ k2) : (setField fs k2 v).lookup k = fs.lookup k := by
  induction fs with
  | nil =>
    simp only [setField, List.lookup]
    rw [show (k == k2) = false from by simpa using h]
  | cons hd t ih =>
    obtain ⟨k3, v3⟩ := hd
    by_cases hk : k3 = k2
    · subst hk
      simp only [setField, beq_self_eq_true, if_true, List.lookup]
      rw [show (k == k3) = false from by simpa using h]
    · simp only [setField]
      rw [if_neg (by simpa using hk)]
      by_cases hk3 : k = k3
      · subst hk3
        simp [List.lookup]
      · simp only [List.lookup]
        rw [show (k == k3) = false from by simpa using hk3, ih]

theorem setField_self (fs : List (String × JVal)) (k : String) (v : JVal)
    (h : fs.lookup k = some v) : setField fs k v = fs := by
  induction fs with
  | nil => simp [List.lookup] at h
  | cons hd t ih =>
    obtain ⟨k2, v2⟩ := hd
    by_cases hk : k = k2
    · subst hk
      simp [List.lookup] at h
      simp [setField, h]
    · simp only [List.lookup, (by simpa using hk : (k == k2) = false)] at h
      simp [setField, (by simpa using Ne.symm hk : (k2 == k) = false), ih h]

theorem leadsWith_of_append (a b s : List Char)
    (h : leadsWith (a ++ b) s = true) : leadsWith a s = true := by
  induction a generalizing s with
  | nil => simp [leadsWith]
  | cons c as ih =>
    cases s with
    | nil => simp [leadsWith] at h
    | cons d ds =>
      simp only [List.cons_append, leadsWith, Bool.and_eq_true] at h ⊢
      exact ⟨h.1, ih ds h.2⟩

theorem includesL_of_append (a b : List Char) (s : List Char)
    (h : includesL (a ++ b) s = true) : includesL a s = true := by
  induction s with
  | nil =>
    simp only [includesL] at h ⊢
    cases a with
    | nil => simp [leadsWith]
    | cons c cs => simp [leadsWith] at h
  | cons c rest ih =>
    simp only [includesL, Bool.or_eq_true] at h ⊢
    rcases h with h | h
    · exact Or.inl (leadsWith_of_append _ _ _ h)
    · exact Or.inr (ih h)

theorem asString_data (s : String) : (s.data).asString = s := rfl

def backquoteChar : Char := "`".data.headD ' '

def jsonTag : List Char := "json".data

theorem fenceMark_eq :
    fenceMark = backquoteChar :: backquoteChar :: backquoteChar :: [] := rfl

theorem fenceJsonMark_eq : fenceJsonMark = fenceMark ++ jsonTag := rfl

theorem leadsWith_append_self (a r : List Char) :
    leadsWith a (a ++ r) = true := by
  induction a with
  | nil => simp [leadsWith]
  | cons c cs ih => simp [leadsWith, ih]

theorem includesL_of_leadsWith (sep s : List Char)
    (h : leadsWith sep s = true) : includesL sep s = true := by
  cases s with
  | nil => simpa [includesL] using h
  | cons c rest => simp [includesL, h]

theorem includesL_append_self (sep pre rest : List Char) :
    includesL sep (pre ++ sep ++ rest) = true := by
  induction pre with
  | nil =>
    simp only [List.nil_append]
    exact includesL_of_leadsWith sep (sep ++ rest) (leadsWith_append_self sep rest)
  | cons p ps ih =>
    simp only [List.cons_append, includesL, Bool.or_eq_true]
    exact Or.inr ih

theorem leadsWith_false_of_head_ne (shead : Char) (stail : List Char)
    (c : Char) (xs : List Char) (h : c ≠ shead) :
    leadsWith (shead :: stail) (c :: xs) = false := by
  simp [leadsWith, Ne.symm h]

theorem afterFirst_skip (shead : Char) (stail : List Char) (pre rest : List Char)
    (hpre : shead ∉ pre) :
    afterFirst (shead :: stail) (pre ++ (shead :: stail) ++ rest) = rest := by
  induction pre with
  | nil =>
    simp only [List.nil_append, List.cons_append, afterFirst]
    rw [if_pos]
    · simp only [List.length_cons, Nat.add_sub_cancel]
      exact List.drop_left stail rest
    · exact leadsWith_append_self (shead :: stail) rest
  | cons p ps ih =>
    have hp : p ≠ shead := fun hcontra => hpre (by simp [hcontra])
    simp only [List.cons_append, afterFirst]
    rw [leadsWith_false_of_head_ne shead stail p _ hp]
    simp only [Bool.false_eq_true, if_false]
    exact ih (fun hmem => hpre (List.mem_cons_of_mem p hmem))

theorem beforeFirst_of_not_includes (sep s : List Char)
    (h : includesL sep s = false) : beforeFirst sep s = s := by
  induction s with
  | nil => simp [beforeFirst]
  | cons c rest ih =>
    simp only [includesL, Bool.or_eq_false_iff] at h
    simp [beforeFirst, h.1, ih h.2]

theorem beforeFirst_stop (shead : Char) (stail : List Char) (pre rest : List Char)
    (hpre : shead ∉ pre) :
    beforeFirst (shead :: stail) (pre ++ (shead :: stail) ++ rest) = pre := by
  induction pre with
  | nil =>
    simp only [List.nil_append, List.cons_append, beforeFirst]
    rw [if_pos]
    exact leadsWith_append_self (shead :: stail) rest
  | cons p ps ih =>
    have hp : p ≠ shead := fun hcontra => hpre (by simp [hcontra])
    simp only [List.cons_append, beforeFirst]
    rw [leadsWith_false_of_head_ne shead stail p _ hp]
    simp only [Bool.false_eq_true, if_false, List.cons.injEq, true_and]
    exact ih (fun hmem => hpre (List.mem_cons_of_mem p hmem))

theorem fenceJsonMark_cons :
    fenceJsonMark = backquoteChar :: (backquoteChar :: backquoteChar :: jsonTag) := rfl

theorem includesL_false_of_head_notin (shead : Char) (stail s : List Char)
    (h : shead ∉ s) : includesL (shead :: stail) s = false := by
  induction s with
  | nil => simp [includesL, leadsWith]
  | cons c rest ih =>
    have hc : c ≠ shead := fun hcontra => h (by simp [hcontra])
    simp only [includesL, Bool.or_eq_false_iff]
    exact ⟨leadsWith_false_of_head_ne shead stail c rest hc,
           ih (fun hmem => h (List.mem_cons_of_mem c hmem))⟩

/-! ## Claim C7: code-fence stripping on already-unfenced text -/

/-- C7 (confirmed): for every text that contains no triple-backtick
marker, the code-fence stripping step returns the text unchanged, so
stripping an already-stripped result is a no-op. -/
theorem C7_strip_unfenced_noop (s : String)
    (h : includesL fenceMark s.data = false) : stripFence s = s := by
  have hj : includesL fenceJsonMark s.data = false := by
    cases hcase : includesL fenceJsonMark s.data with
    | false => rfl
    | true =>
      have hmark : includesL fenceMark s.data = true :=
        includesL_of_append fenceMark jsonTag s.data
          (by rw [← fenceJsonMark_eq]; exact hcase)
      rw [hmark] at h
      cases h
  simp only [stripFence, stripFenceL, hj, h, Bool.false_eq_true, if_false]
  exact asString_data s

theorem C7_strip_unfenced_noop_witness :
    includesL fenceMark ("plain prose answer").data = false ∧
      stripFence "plain prose answer" = "plain prose answer" :=
  ⟨by decide, C7_strip_unfenced_noop "plain prose answer" (by decide)⟩

/-! ## Claim C6: what code-fence stripping extracts -/

/-- C6 (counterexample): the text contains a plain fenced region first and
a json-tagged fenced region later; the first pair of fence markers
encloses the content A, but the stripper returns B, the content of the
later json-tagged pair. -/
theorem C6_first_pair_counterexample :
    stripFence "```\nA\n```\n```json\nB\n```" = "B" ∧ ("B" : String) ≠ "A" :=
  ⟨rfl, by decide⟩

/-- C6 (amended): the stripper prefers a json-tagged fence: when the text
contains a json-tagged marker, it returns the trimmed content between the
first json-tagged marker and the next triple-backtick marker, even when a
plain fenced region occurs earlier; only otherwise does it return the
trimmed content between the first and second triple-backtick markers (so
a non-json language tag stays inside the extracted content). -/
theorem C6_amended_strip (pre mid post : List Char)
    (hpre : backquoteChar ∉ pre) (hmid : backquoteChar ∉ mid) :
    (includesL fenceJsonMark (mid ++ fenceMark ++ post) = false →
      stripFenceL (pre ++ fenceJsonMark ++ mid ++ fenceMark ++ post) = trimL mid)
    ∧ (includesL fenceJsonMark (pre ++ fenceMark ++ mid ++ fenceMark ++ post) = false →
      stripFenceL (pre ++ fenceMark ++ mid ++ fenceMark ++ post) = trimL mid) := by
  constructor
  · intro h1
    have hguard : includesL fenceJsonMark
        (pre ++ fenceJsonMark ++ mid ++ fenceMark ++ post) = true := by
      have h := includesL_append_self fenceJsonMark pre (mid ++ fenceMark ++ post)
      simpa [List.append_assoc] using h
    have hafter : afterFirst fenceJsonMark
        (pre ++ fenceJsonMark ++ mid ++ fenceMark ++ post) = mid ++ fenceMark ++ post := by
      have h := afterFirst_skip backquoteChar
        (backquoteChar :: backquoteChar :: jsonTag) pre (mid ++ fenceMark ++ post) hpre
      rw [← fenceJsonMark_cons] at h
      simpa [List.append_assoc] using h
    have hbefore1 : beforeFirst fenceJsonMark (mid ++ fenceMark ++ post)
        = mid ++ fenceMark ++ post := beforeFirst_of_not_includes _ _ h1
    have hbefore2 : beforeFirst fenceMark (mid ++ fenceMark ++ post) = mid := by
      have h := beforeFirst_stop backquoteChar (backquoteChar :: backquoteChar :: []) mid post hmid
      rw [← fenceMark_eq] at h
      exact h
    simp only [stripFenceL, hguard, if_true, hafter, hbefore1, hbefore2]
  · intro h2
    have hguard2 : includesL fenceMark
        (pre ++ fenceMark ++ mid ++ fenceMark ++ post) = true := by
      have h := includesL_append_self fenceMark pre (mid ++ fenceMark ++ post)
      simpa [List.append_assoc] using h
    have hafter : afterFirst fenceMark
        (pre ++ fenceMark ++ mid ++ fenceMark ++ post) = mid ++ fenceMark ++ post := by
      have h := afterFirst_skip backquoteChar
        (backquoteChar :: backquoteChar :: []) pre (mid ++ fenceMark ++ post) hpre
      rw [← fenceMark_eq] at h
      simpa [List.append_assoc] using h
    have hbefore1 : beforeFirst fenceMark (mid ++ fenceMark ++ post) = mid := by
      have h := beforeFirst_stop backquoteChar (backquoteChar :: backquoteChar :: []) mid post hmid
      rw [← fenceMark_eq] at h
      exact h
    have hmidfree : includesL fenceMark mid = false := by
      rw [fenceMark_eq]
      exact includesL_false_of_head_notin backquoteChar _ mid hmid
    have hbefore2 : beforeFirst fenceMark mid = mid :=
      beforeFirst_of_not_includes _ _ hmidfree
    simp only [stripFenceL, h2, Bool.false_eq_true, if_false, hguard2, if_true,
      hafter, hbefore1, hbefore2]

theorem C6_amended_strip_witness :
    stripFenceL ("P".data ++ fenceJsonMark ++ " M ".data ++ fenceMark ++ "Q".data)
      = "M".data ∧
    stripFenceL ("P".data ++ fenceMark ++ " M ".data ++ fenceMark ++ "html".data)
      = "M".data := by
  constructor
  · have h := (C6_amended_strip "P".data " M ".data "Q".data
      (by decide) (by decide)).1 (by decide)
    rw [h]
    decide
  · have h := (C6_amended_strip "P".data " M ".data "html".data
      (by decide) (by decide)).2 (by decide)
    rw [h]
    decide

/-! ## Evaluation lemmas for the reconciliation step -/

theorem jsOr_some_self (v : JVal) : jsOr (some v) v = v := by
  simp [jsOr]

theorem normConstraint_obj (t fresh : String) (fs : List (String × JVal)) :
    normConstraint t fresh (JVal.obj fs) = .ok (JVal.obj
      (setField
        (setField (setField fs "id" (jsOr (fs.lookup "id") (JVal.str fresh)))
          "sourceStart" (jsOr (fs.lookup "sourceStart") (JVal.num 0)))
        "sourceEnd" (jsOr (fs.lookup "sourceEnd") (JVal.num (t.length : ℚ))))) := rfl

theorem normGroup_obj (fresh : String) (fs : List (String × JVal)) :
    normGroup fresh (JVal.obj fs) = .ok (JVal.obj
      (setField (setField fs "id" (jsOr (fs.lookup "id") (JVal.str fresh)))
        "similarity" (jsOr (fs.lookup "similarity") (JVal.num 0.8)))) := rfl

theorem normContradiction_obj (fresh : String) (fs : List (String × JVal)) :
    normContradiction fresh (JVal.obj fs) = .ok (JVal.obj
      (setField (setField fs "id" (jsOr (fs.lookup "id") (JVal.str fresh)))
        "confidence" (jsOr (fs.lookup "confidence") (JVal.num 0.8)))) := rfl

theorem reconcile_some_obj (fields : List (String × JVal))
    (aiOut t : String) (fF fC fG fD : Nat → String) :
    reconcile (some (JVal.obj fields)) aiOut t fF fC fG fD =
      (match jsMapArr (fun i c => normConstraint t (fC i) c)
          (jsOr (fields.lookup "constraints") (JVal.arr [])) with
       | .error e => .error e
       | .ok cs2 =>
         match jsMapArr (fun i g => normGroup (fG i) g)
             (jsOr (fields.lookup "redundantGroups") (JVal.arr [])) with
         | .error e => .error e
         | .ok gs2 =>
           match jsMapArr (fun i d => normContradiction (fD i) d)
               (jsOr (fields.lookup "contradictions") (JVal.arr [])) with
           | .error e => .error e
           | .ok ds2 =>
             .ok (JVal.obj [("constraints", JVal.arr cs2),
                            ("redundantGroups", JVal.arr gs2),
                            ("contradictions", JVal.arr ds2),
                            ("originalText", jsOr (fields.lookup "originalText") (JVal.str t))])) := rfl

theorem mem_mapWithIdx {g : Nat → α → β} :
    ∀ {i : Nat} {l : List α} {x : β}, x ∈ mapWithIdx g i l →
      ∃ j a, a ∈ l ∧ x = g j a := by
  intro i l
  induction l generalizing i with
  | nil => intro x hx; simp [mapWithIdx] at hx
  | cons a as ih =>
    intro x hx
    simp only [mapWithIdx, List.mem_cons] at hx
    rcases hx with hx | hx
    · exact ⟨i, a, by simp, hx⟩
    · obtain ⟨j, b, hb, hxb⟩ := ih hx
      exact ⟨j, b, by simp [hb], hxb⟩

theorem mapElems_of_fixed (f : Nat → JVal → Except String JVal) (xs : List JVal)
    (h : ∀ x ∈ xs, ∀ j, f j x = .ok x) : ∀ i, mapElems f i xs = .ok xs := by
  induction xs with
  | nil => intro i; rfl
  | cons x rest ih =>
    intro i
    simp only [mapElems, h x (by simp) i,
      ih (fun y hy j => h y (by simp [hy]) j) (i + 1)]

theorem mapElems_ok_of_all_ok (f : Nat → JVal → Except String JVal)
    (xs : List JVal) (h : ∀ x ∈ xs, ∀ j, ∃ y, f j x = .ok y) :
    ∀ i, ∃ ys, mapElems f i xs = .ok ys := by
  induction xs with
  | nil => intro i; exact ⟨[], rfl⟩
  | cons x rest ih =>
    intro i
    obtain ⟨y, hy⟩ := h x (by simp) i
    obtain ⟨ys, hys⟩ := ih (fun z hz j => h z (by simp [hz]) j) (i + 1)
    exact ⟨y :: ys, by simp only [mapElems, hy, hys]⟩

theorem normConstraint_fallback (t fresh fresh2 : String) (line : List Char)
    (h : fresh ≠ "") :
    normConstraint t fresh2 (fallbackConstraint t fresh line)
      = .ok (fallbackConstraint t fresh line) := by
  have htr : jsTruthy (JVal.str fresh) = true := by simp [jsTruthy, h]
  simp [normConstraint, fallbackConstraint, jsSpreadObj, jGetField, jsOr, htr,
    setField, List.lookup, jsOr_some_self]

/-- Evaluation of the whole fallback path under the (real-world) premise
that the identifier supply produces non-empty strings: the id repair pass
leaves every fallback constraint unchanged. -/
theorem reconcile_none_eval (aiOut t : String) (fF fC fG fD : Nat → String)
    (hF : ∀ i, fF i ≠ "") :
    reconcile none aiOut t fF fC fG fD = .ok (JVal.obj
      [("constraints", JVal.arr (fallbackConstraints aiOut t fF)),
       ("redundantGroups", JVal.arr []),
       ("contradictions", JVal.arr []),
       ("originalText", JVal.str t)]) := by
  have hall : ∀ x ∈ fallbackConstraints aiOut t fF, ∀ j,
      normConstraint t (fC j) x = .ok x := by
    intro x hx j
    obtain ⟨i, line, _, rfl⟩ := mem_mapWithIdx hx
    exact normConstraint_fallback t (fF i) (fC j) line (hF i)
  have hmap := mapElems_of_fixed _ _ hall 0
  rw [show reconcile none aiOut t fF fC fG fD =
      (match mapElems (fun i c => normConstraint t (fC i) c) 0
          (fallbackConstraints aiOut t fF) with
       | .error e => Except.error e
       | .ok cs2 => Except.ok (JVal.obj
           [("constraints", JVal.arr cs2),
            ("redundantGroups", JVal.arr []),
            ("contradictions", JVal.arr []),
            ("originalText", jsOr (some (JVal.str t)) (JVal.str t))]))
      from rfl]
  rw [hmap, jsOr_some_self]

/-- Evaluation of the fallback path with no premise on the identifier
supply: it still succeeds, with some list of constraints. -/
theorem reconcile_none_shape (aiOut t : String) (fF fC fG fD : Nat → String) :
    ∃ cs2, reconcile none aiOut t fF fC fG fD = .ok (JVal.obj
      [("constraints", JVal.arr cs2),
       ("redundantGroups", JVal.arr []),
       ("contradictions", JVal.arr []),
       ("originalText", JVal.str t)]) := by
  have hall : ∀ x ∈ fallbackConstraints aiOut t fF, ∀ j,
      ∃ y, normConstraint t (fC j) x = .ok y := by
    intro x hx j
    obtain ⟨i, line, _, rfl⟩ := mem_mapWithIdx hx
    exact ⟨_, normConstraint_obj t (fC j) _⟩
  obtain ⟨ys, hys⟩ := mapElems_ok_of_all_ok _ _ hall 0
  refine ⟨ys, ?_⟩
  rw [show reconcile none aiOut t fF fC fG fD =
      (match mapElems (fun i c => normConstraint t (fC i) c) 0
          (fallbackConstraints aiOut t fF) with
       | .error e => Except.error e
       | .ok cs2 => Except.ok (JVal.obj
           [("constraints", JVal.arr cs2),
            ("redundantGroups", JVal.arr []),
            ("contradictions", JVal.arr []),
            ("originalText", jsOr (some (JVal.str t)) (JVal.str t))]))
      from rfl]
  rw [hys, jsOr_some_self]

/-! ## Claim C1: the four top-level fields -/

/-- Whether a value is an object with exactly the four top-level fields of
an AnalysisResult, in order, the three collections being sequences. -/
def topShape : JVal → Bool
  | .obj [("constraints", .arr _), ("redundantGroups", .arr _),
          ("contradictions", .arr _), ("originalText", _)] => true
  | _ => false

def isStringVal : JVal → Bool
  | .str _ => true
  | _ => false

def isOkB (e : Except String JVal) : Bool :=
  match e with
  | .ok _ => true
  | .error _ => false

theorem reconcileBase_shape (base : JVal) (t : String) (fC fG fD : Nat → String)
    (r : JVal) (h : reconcileBase base t fC fG fD = .ok r) : topShape r = true := by
  unfold reconcileBase at h
  split at h
  · simp at h
  · simp only [] at h
    split at h
    · simp at h
    · split at h
      · simp at h
      · split at h
        · simp at h
        · rw [Except.ok.injEq] at h
          subst h
          rfl

theorem jGetField_result_ot (cs gs ds : List JVal) (v : JVal) :
    jGetField (JVal.obj [("constraints", JVal.arr cs),
      ("redundantGroups", JVal.arr gs), ("contradictions", JVal.arr ds),
      ("originalText", v)]) "originalText" = some v := rfl

/-- C1 (counterexample): a parsed answer whose `originalText` is the
number 5 (present but of the wrong shape) is not substituted with a
default: the reconciled result carries a non-string `originalText`; and a
parsed answer whose `constraints` field is the truthy non-sequence 5 is
not substituted either: the repair pass throws instead of returning an
AnalysisResult. -/
theorem C1_wrong_shape_counterexample :
    (reconcile (some (JVal.obj [("originalText", JVal.num 5)])) "" "t"
        (fun _ => "u") (fun _ => "u") (fun _ => "u") (fun _ => "u")
      = Except.ok (JVal.obj [("constraints", JVal.arr []),
          ("redundantGroups", JVal.arr []),
          ("contradictions", JVal.arr []),
          ("originalText", JVal.num 5)]))
    ∧ isStringVal (JVal.num 5) = false
    ∧ isOkB (reconcile (some (JVal.obj [("constraints", JVal.num 5)])) "" "t"
        (fun _ => "u") (fun _ => "u") (fun _ => "u") (fun _ => "u")) = false :=
  ⟨rfl, rfl, rfl⟩

/-- C1 (amended): every successful reconciliation yields an object with
exactly the four top-level fields, the three collections being sequences,
and an absent `originalText` is substituted by the input text; however a
present-but-wrong-shape field is only substituted when it is falsy — a
truthy non-string `originalText` is passed through unchanged and a truthy
non-sequence collection value makes the repair pass throw to the
catch-all 500 path (see the counterexample). -/
theorem C1_amended_shape :
    (∀ (parsed : Option JVal) (aiOut t : String) (fF fC fG fD : Nat → String)
        (r : JVal),
        reconcile parsed aiOut t fF fC fG fD = Except.ok r → topShape r = true)
    ∧ (∀ (fields : List (String × JVal)) (aiOut t : String)
        (fF fC fG fD : Nat → String) (r : JVal),
        fields.lookup "originalText" = none →
        reconcile (some (JVal.obj fields)) aiOut t fF fC fG fD = Except.ok r →
        jGetField r "originalText" = some (JVal.str t)) := by
  constructor
  · intro parsed aiOut t fF fC fG fD r h
    exact reconcileBase_shape _ t fC fG fD r h
  · intro fields aiOut t fF fC fG fD r hOT h
    rw [reconcile_some_obj] at h
    split at h
    · simp at h
    · split at h
      · simp at h
      · split at h
        · simp at h
        · rw [Except.ok.injEq] at h
          subst h
          rw [jGetField_result_ot, hOT]
          rfl

theorem C1_amended_shape_witness :
    topShape (JVal.obj [("constraints", JVal.arr []),
        ("redundantGroups", JVal.arr []), ("contradictions", JVal.arr []),
        ("originalText", JVal.str "t")]) = true
    ∧ jGetField (JVal.obj [("constraints", JVal.arr []),
        ("redundantGroups", JVal.arr []), ("contradictions", JVal.arr []),
        ("originalText", JVal.str "t")]) "originalText" = some (JVal.str "t") :=
  ⟨C1_amended_shape.1 none "" "t"
      (fun _ => "u") (fun _ => "u") (fun _ => "u") (fun _ => "u")
      (JVal.obj [("constraints", JVal.arr []), ("redundantGroups", JVal.arr []),
        ("contradictions", JVal.arr []), ("originalText", JVal.str "t")]) rfl,
   C1_amended_shape.2 [] "" "t"
      (fun _ => "u") (fun _ => "u") (fun _ => "u") (fun _ => "u")
      (JVal.obj [("constraints", JVal.arr []), ("redundantGroups", JVal.arr []),
        ("contradictions", JVal.arr []), ("originalText", JVal.str "t")]) rfl rfl⟩

/-! ## Claim C2: similarity and confidence scores -/

theorem jsOr_num_zero_default (q : ℚ) :
    jsOr (some (JVal.num q)) (JVal.num 0) = JVal.num q := by
  by_cases h : q = 0 <;> simp [jsOr, jsTruthy, h]

theorem jsOr_num_of_ne (q : ℚ) (d : JVal) (h : q ≠ 0) :
    jsOr (some (JVal.num q)) d = JVal.num q := by
  simp [jsOr, jsTruthy, h]

theorem jsOr_str_of_ne (s : String) (d : JVal) (h : s ≠ "") :
    jsOr (some (JVal.str s)) d = JVal.str s := by
  simp [jsOr, jsTruthy, h]

/-- C2 (counterexample): a redundant group whose similarity is 2 — outside
the interval from 0 to 1 — is passed through unchanged (it is not replaced
by 0.8), so the reconciled result carries a similarity above 1; and the
in-range similarity 0 is replaced by 0.8 rather than left unchanged. -/
theorem C2_score_range_counterexample :
    (reconcile (some (JVal.obj [("redundantGroups",
        JVal.arr [JVal.obj [("similarity", JVal.num 2)]])])) "" "t"
        (fun _ => "u") (fun _ => "u") (fun _ => "g0") (fun _ => "u")
      = Except.ok (JVal.obj [("constraints", JVal.arr []),
          ("redundantGroups", JVal.arr [JVal.obj
            [("similarity", JVal.num 2), ("id", JVal.str "g0")]]),
          ("contradictions", JVal.arr []),
          ("originalText", JVal.str "t")]))
    ∧ ¬ ((2 : ℚ) ≤ 1)
    ∧ normGroup "g" (JVal.obj [("similarity", JVal.num 0)])
        = Except.ok (JVal.obj [("similarity", JVal.num 0.8), ("id", JVal.str "g")])
    ∧ (0.8 : ℚ) ≠ 0 :=
  ⟨rfl, by norm_num, rfl, by norm_num⟩

/-- C2 (amended): the post-processing replaces a similarity or confidence
with 0.8 exactly when the value is missing or falsy (which includes the
in-range value 0); any truthy value — including values outside the
interval from 0 to 1 — is passed through unchanged, so membership of the
scores in that interval is not enforced. -/
theorem C2_amended_scores (fs : List (String × JVal)) (fresh : String) (q : ℚ) :
    (fs.lookup "similarity" = some (JVal.num q) → q ≠ 0 →
      (normGroup fresh (JVal.obj fs)).map (fun r => jGetField r "similarity")
        = Except.ok (some (JVal.num q)))
    ∧ (fs.lookup "similarity" = some (JVal.num 0) →
      (normGroup fresh (JVal.obj fs)).map (fun r => jGetField r "similarity")
        = Except.ok (some (JVal.num 0.8)))
    ∧ (fs.lookup "similarity" = none →
      (normGroup fresh (JVal.obj fs)).map (fun r => jGetField r "similarity")
        = Except.ok (some (JVal.num 0.8)))
    ∧ (fs.lookup "confidence" = some (JVal.num q) → q ≠ 0 →
      (normContradiction fresh (JVal.obj fs)).map (fun r => jGetField r "confidence")
        = Except.ok (some (JVal.num q)))
    ∧ (fs.lookup "confidence" = some (JVal.num 0) →
      (normContradiction fresh (JVal.obj fs)).map (fun r => jGetField r "confidence")
        = Except.ok (some (JVal.num 0.8)))
    ∧ (fs.lookup "confidence" = none →
      (normContradiction fresh (JVal.obj fs)).map (fun r => jGetField r "confidence")
        = Except.ok (some (JVal.num 0.8))) := by
  refine ⟨?_, ?_, ?_, ?_, ?_, ?_⟩
  · intro h hq
    rw [normGroup_obj, h, jsOr_num_of_ne q _ hq]
    simp only [Except.map, jGetField, lookup_setField_same]
  · intro h
    rw [normGroup_obj, h]
    simp only [Except.map, jGetField, lookup_setField_same, jsOr, jsTruthy]
    norm_num
  · intro h
    rw [normGroup_obj, h]
    simp only [Except.map, jGetField, lookup_setField_same, jsOr]
  · intro h hq
    rw [normContradiction_obj, h, jsOr_num_of_ne q _ hq]
    simp only [Except.map, jGetField, lookup_setField_same]
  · intro h
    rw [normContradiction_obj, h]
    simp only [Except.map, jGetField, lookup_setField_same, jsOr, jsTruthy]
    norm_num
  · intro h
    rw [normContradiction_obj, h]
    simp only [Except.map, jGetField, lookup_setField_same, jsOr]

theorem C2_amended_scores_witness :
    ((normGroup "g" (JVal.obj [("similarity", JVal.num 2)])).map
        (fun r => jGetField r "similarity") = Except.ok (some (JVal.num 2)))
    ∧ ((normContradiction "d" (JVal.obj [("confidence", JVal.num 0)])).map
        (fun r => jGetField r "confidence") = Except.ok (some (JVal.num 0.8))) :=
  ⟨(C2_amended_scores [("similarity", JVal.num 2)] "g" 2).1 rfl (by norm_num),
   (C2_amended_scores [("confidence", JVal.num 0)] "d" 2).2.2.2.2.1 rfl⟩

/-! ## Claim C8: sourceStart and sourceEnd -/

/-- C8 (counterexample): a model-supplied constraint with sourceStart 5
and sourceEnd 2 — both truthy, so neither is defaulted — is returned
unchanged by the reconciliation, violating the claimed invariant that
sourceStart is at most sourceEnd. -/
theorem C8_span_counterexample :
    (reconcile (some (JVal.obj
        [("constraints", JVal.arr [JVal.obj
          [("id", JVal.str "a"), ("text", JVal.str "x"),
           ("sourceStart", JVal.num 5), ("sourceEnd", JVal.num 2)]]),
         ("redundantGroups", JVal.arr []),
         ("contradictions", JVal.arr []),
         ("originalText", JVal.str "t")])) "" "t"
        (fun _ => "u") (fun _ => "u") (fun _ => "u") (fun _ => "u")
      = Except.ok (JVal.obj
        [("constraints", JVal.arr [JVal.obj
          [("id", JVal.str "a"), ("text", JVal.str "x"),
           ("sourceStart", JVal.num 5), ("sourceEnd", JVal.num 2)]]),
         ("redundantGroups", JVal.arr []),
         ("contradictions", JVal.arr []),
         ("originalText", JVal.str "t")]))
    ∧ ¬ ((5 : ℚ) ≤ 2) :=
  ⟨rfl, by norm_num⟩

/-- C8 (amended): every reconciled constraint has sourceStart and
sourceEnd fields, with an absent sourceStart defaulting to 0 and an
absent sourceEnd defaulting to the length of the input text (a
non-negative span, so the default span is structurally valid); but a
truthy model-supplied offset is passed through without any comparison, so
sourceStart at most sourceEnd is not enforced on model-supplied spans. -/
theorem C8_amended_offsets (fs : List (String × JVal)) (t fresh : String) (q : ℚ) :
    (fs.lookup "sourceStart" = some (JVal.num q) → q ≠ 0 →
      (normConstraint t fresh (JVal.obj fs)).map (fun r => jGetField r "sourceStart")
        = Except.ok (some (JVal.num q)))
    ∧ (fs.lookup "sourceStart" = none →
      (normConstraint t fresh (JVal.obj fs)).map (fun r => jGetField r "sourceStart")
        = Except.ok (some (JVal.num 0)))
    ∧ (fs.lookup "sourceEnd" = some (JVal.num q) → q ≠ 0 →
      (normConstraint t fresh (JVal.obj fs)).map (fun r => jGetField r "sourceEnd")
        = Except.ok (some (JVal.num q)))
    ∧ (fs.lookup "sourceEnd" = none →
      (normConstraint t fresh (JVal.obj fs)).map (fun r => jGetField r "sourceEnd")
        = Except.ok (some (JVal.num (t.length : ℚ))))
    ∧ ((0 : ℚ) ≤ (t.length : ℚ)) := by
  refine ⟨?_, ?_, ?_, ?_, by positivity⟩
  · intro h hq
    rw [normConstraint_obj, h, jsOr_num_of_ne q _ hq]
    simp only [Except.map, jGetField]
    rw [lookup_setField_ne _ "sourceStart" "sourceEnd" _ (by decide),
      lookup_setField_same]
  · intro h
    rw [normConstraint_obj, h]
    simp only [Except.map, jGetField, jsOr]
    rw [lookup_setField_ne _ "sourceStart" "sourceEnd" _ (by decide),
      lookup_setField_same]
  · intro h hq
    rw [normConstraint_obj, h, jsOr_num_of_ne q _ hq]
    simp only [Except.map, jGetField, lookup_setField_same]
  · intro h
    rw [normConstraint_obj, h]
    simp only [Except.map, jGetField, jsOr, lookup_setField_same]

theorem C8_amended_offsets_witness :
    ((normConstraint "txt" "u" (JVal.obj [("sourceStart", JVal.num 9)])).map
        (fun r => jGetField r "sourceStart") = Except.ok (some (JVal.num 9)))
    ∧ ((normConstraint "txt" "u" (JVal.obj [("sourceStart", JVal.num 9)])).map
        (fun r => jGetField r "sourceEnd")
          = Except.ok (some (JVal.num (("txt" : String).length : ℚ)))) :=
  ⟨(C8_amended_offsets [("sourceStart", JVal.num 9)] "txt" "u" 9).1 rfl (by norm_num),
   (C8_amended_offsets [("sourceStart", JVal.num 9)] "txt" "u" 9).2.2.2.1 rfl⟩

/-! ## Claim C10: the repair passes are field-local -/

/-- C10 (confirmed): the per-element repair passes only touch id,
sourceStart and sourceEnd on a constraint, id and similarity on a
redundant group, and id and confidence on a contradiction; every other
field of the parsed element — including fields outside the declared
schema — is passed through unchanged into the result. -/
theorem C10_field_local (fs : List (String × JVal)) (t fresh k : String) :
    (k ≠ "id" → k ≠ "sourceStart" → k ≠ "sourceEnd" →
      (normConstraint t fresh (JVal.obj fs)).map (fun r => jGetField r k)
        = Except.ok (fs.lookup k))
    ∧ (k ≠ "id" → k ≠ "similarity" →
      (normGroup fresh (JVal.obj fs)).map (fun r => jGetField r k)
        = Except.ok (fs.lookup k))
    ∧ (k ≠ "id" → k ≠ "confidence" →
      (normContradiction fresh (JVal.obj fs)).map (fun r => jGetField r k)
        = Except.ok (fs.lookup k)) := by
  refine ⟨?_, ?_, ?_⟩
  · intro hid hss hse
    rw [normConstraint_obj]
    simp only [Except.map, jGetField]
    rw [lookup_setField_ne _ k "sourceEnd" _ hse,
      lookup_setField_ne _ k "sourceStart" _ hss,
      lookup_setField_ne _ k "id" _ hid]
  · intro hid hsim
    rw [normGroup_obj]
    simp only [Except.map, jGetField]
    rw [lookup_setField_ne _ k "similarity" _ hsim,
      lookup_setField_ne _ k "id" _ hid]
  · intro hid hconf
    rw [normContradiction_obj]
    simp only [Except.map, jGetField]
    rw [lookup_setField_ne _ k "confidence" _ hconf,
      lookup_setField_ne _ k "id" _ hid]

theorem C10_field_local_witness :
    ((normConstraint "t" "u" (JVal.obj
        [("text", JVal.str "x"), ("category", JVal.str "extra")])).map
      (fun r => jGetField r "category") = Except.ok (some (JVal.str "extra")))
    ∧ ((normGroup "u" (JVal.obj [("constraints", JVal.arr [])])).map
      (fun r => jGetField r "constraints") = Except.ok (some (JVal.arr [])))
    ∧ ((normContradiction "u" (JVal.obj [("explanation", JVal.str "why")])).map
      (fun r => jGetField r "explanation") = Except.ok (some (JVal.str "why"))) :=
  ⟨(C10_field_local [("text", JVal.str "x"), ("category", JVal.str "extra")]
      "t" "u" "category").1 (by decide) (by decide) (by decide),
   (C10_field_local [("constraints", JVal.arr [])] "t" "u" "constraints").2.1
      (by decide) (by decide),
   (C10_field_local [("explanation", JVal.str "why")] "t" "u" "explanation").2.2
      (by decide) (by decide)⟩

/-! ## Claim C5: the originalText field -/

/-- C5 (counterexample): when the provider's parsed JSON answer carries a
truthy `originalText` of its own, the handler keeps the model's value
instead of echoing the exact input string back. -/
theorem C5_originalText_counterexample :
    (reconcile (some (JVal.obj [("originalText", JVal.str "other")])) "" "input"
        (fun _ => "u") (fun _ => "u") (fun _ => "u") (fun _ => "u")
      = Except.ok (JVal.obj [("constraints", JVal.arr []),
          ("redundantGroups", JVal.arr []),
          ("contradictions", JVal.arr []),
          ("originalText", JVal.str "other")]))
    ∧ ("other" : String) ≠ "input" :=
  ⟨rfl, by decide⟩

/-- C5 (amended): the reconciled `originalText` equals the exact input
string whenever the model's parsed answer omits the field or supplies a
falsy value (in particular on the whole fallback path); but a truthy
model-supplied `originalText` — even a different string — is kept instead
of the input. -/
theorem C5_amended_originalText :
    (∀ (aiOut t : String) (fF fC fG fD : Nat → String),
      (reconcile none aiOut t fF fC fG fD).map (fun r => jGetField r "originalText")
        = Except.ok (some (JVal.str t)))
    ∧ (∀ (fields : List (String × JVal)) (aiOut t : String)
        (fF fC fG fD : Nat → String) (r v : JVal),
        fields.lookup "originalText" = some v → jsTruthy v = false →
        reconcile (some (JVal.obj fields)) aiOut t fF fC fG fD = Except.ok r →
        jGetField r "originalText" = some (JVal.str t))
    ∧ (∀ (fields : List (String × JVal)) (aiOut t : String)
        (fF fC fG fD : Nat → String) (r v : JVal),
        fields.lookup "originalText" = some v → jsTruthy v = true →
        reconcile (some (JVal.obj fields)) aiOut t fF fC fG fD = Except.ok r →
        jGetField r "originalText" = some v) := by
  refine ⟨?_, ?_, ?_⟩
  · intro aiOut t fF fC fG fD
    obtain ⟨cs2, h⟩ := reconcile_none_shape aiOut t fF fC fG fD
    rw [h]
    rfl
  · intro fields aiOut t fF fC fG fD r v hOT htr h
    rw [reconcile_some_obj] at h
    split at h
    · simp at h
    · split at h
      · simp at h
      · split at h
        · simp at h
        · rw [Except.ok.injEq] at h
          subst h
          rw [jGetField_result_ot, hOT]
          simp [jsOr, htr]
  · intro fields aiOut t fF fC fG fD r v hOT htr h
    rw [reconcile_some_obj] at h
    split at h
    · simp at h
    · split at h
      · simp at h
      · split at h
        · simp at h
        · rw [Except.ok.injEq] at h
          subst h
          rw [jGetField_result_ot, hOT]
          simp [jsOr, htr]

theorem C5_amended_originalText_witness :
    ((reconcile none "prose" "inp"
        (fun _ => "u") (fun _ => "u") (fun _ => "u") (fun _ => "u")).map
      (fun r => jGetField r "originalText") = Except.ok (some (JVal.str "inp")))
    ∧ jGetField (JVal.obj [("constraints", JVal.arr []),
        ("redundantGroups", JVal.arr []), ("contradictions", JVal.arr []),
        ("originalText", JVal.str "inp")]) "originalText"
      = some (JVal.str "inp")
    ∧ jGetField (JVal.obj [("constraints", JVal.arr []),
        ("redundantGroups", JVal.arr []), ("contradictions", JVal.arr []),
        ("originalText", JVal.str "kept")]) "originalText"
      = some (JVal.str "kept") :=
  ⟨C5_amended_originalText.1 "prose" "inp"
      (fun _ => "u") (fun _ => "u") (fun _ => "u") (fun _ => "u"),
   C5_amended_originalText.2.1 [("originalText", JVal.str "")] "" "inp"
      (fun _ => "u") (fun _ => "u") (fun _ => "u") (fun _ => "u")
      (JVal.obj [("constraints", JVal.arr []), ("redundantGroups", JVal.arr []),
        ("contradictions", JVal.arr []), ("originalText", JVal.str "inp")])
      (JVal.str "") rfl rfl rfl,
   C5_amended_originalText.2.2 [("originalText", JVal.str "kept")] "" "inp"
      (fun _ => "u") (fun _ => "u") (fun _ => "u") (fun _ => "u")
      (JVal.obj [("constraints", JVal.arr []), ("redundantGroups", JVal.arr []),
        ("contradictions", JVal.arr []), ("originalText", JVal.str "kept")])
      (JVal.str "kept") rfl rfl rfl⟩

/-! ## Claim C3: round-trip of a schema-exact answer -/

theorem normConstraint_preserved (t fresh : String) (fs : List (String × JVal))
    (hid : ∃ s, fs.lookup "id" = some (JVal.str s) ∧ s ≠ "")
    (hss : ∃ q, fs.lookup "sourceStart" = some (JVal.num q))
    (hse : ∃ q, fs.lookup "sourceEnd" = some (JVal.num q) ∧ q ≠ 0) :
    normConstraint t fresh (JVal.obj fs) = .ok (JVal.obj fs) := by
  obtain ⟨s, hs, hsne⟩ := hid
  obtain ⟨a, ha⟩ := hss
  obtain ⟨b, hb, hbne⟩ := hse
  rw [normConstraint_obj, hs, ha, hb, jsOr_str_of_ne s _ hsne,
    jsOr_num_zero_default, jsOr_num_of_ne b _ hbne,
    setField_self fs "id" _ hs, setField_self fs "sourceStart" _ ha,
    setField_self fs "sourceEnd" _ hb]

theorem normGroup_preserved (fresh : String) (fs : List (String × JVal))
    (hid : ∃ s, fs.lookup "id" = some (JVal.str s) ∧ s ≠ "")
    (hsim : ∃ q, fs.lookup "similarity" = some (JVal.num q) ∧ q ≠ 0) :
    normGroup fresh (JVal.obj fs) = .ok (JVal.obj fs) := by
  obtain ⟨s, hs, hsne⟩ := hid
  obtain ⟨a, ha, hane⟩ := hsim
  rw [normGroup_obj, hs, ha, jsOr_str_of_ne s _ hsne, jsOr_num_of_ne a _ hane,
    setField_self fs "id" _ hs, setField_self fs "similarity" _ ha]

theorem normContradiction_preserved (fresh : String) (fs : List (String × JVal))
    (hid : ∃ s, fs.lookup "id" = some (JVal.str s) ∧ s ≠ "")
    (hconf : ∃ q, fs.lookup "confidence" = some (JVal.num q) ∧ q ≠ 0) :
    normContradiction fresh (JVal.obj fs) = .ok (JVal.obj fs) := by
  obtain ⟨s, hs, hsne⟩ := hid
  obtain ⟨a, ha, hane⟩ := hconf
  rw [normContradiction_obj, hs, ha, jsOr_str_of_ne s _ hsne,
    jsOr_num_of_ne a _ hane,
    setField_self fs "id" _ hs, setField_self fs "confidence" _ ha]

/-- C3 (counterexample): a well-formed JSON document matching the schema
exactly, whose contradiction has the in-range confidence 0, is not
preserved: the confidence comes back as 0.8. -/
theorem C3_roundtrip_counterexample :
    (reconcile (some (JVal.obj
        [("constraints", JVal.arr []),
         ("redundantGroups", JVal.arr []),
         ("contradictions", JVal.arr [JVal.obj
           [("id", JVal.str "d1"),
            ("constraint1", JVal.obj [("id", JVal.str "a"), ("text", JVal.str "x"),
              ("sourceStart", JVal.num 0), ("sourceEnd", JVal.num 1)]),
            ("constraint2", JVal.obj [("id", JVal.str "b"), ("text", JVal.str "y"),
              ("sourceStart", JVal.num 0), ("sourceEnd", JVal.num 1)]),
            ("explanation", JVal.str "e"),
            ("confidence", JVal.num 0)]]),
         ("originalText", JVal.str "t")])) "" "t"
        (fun _ => "u") (fun _ => "u") (fun _ => "u") (fun _ => "u")
      = Except.ok (JVal.obj
        [("constraints", JVal.arr []),
         ("redundantGroups", JVal.arr []),
         ("contradictions", JVal.arr [JVal.obj
           [("id", JVal.str "d1"),
            ("constraint1", JVal.obj [("id", JVal.str "a"), ("text", JVal.str "x"),
              ("sourceStart", JVal.num 0), ("sourceEnd", JVal.num 1)]),
            ("constraint2", JVal.obj [("id", JVal.str "b"), ("text", JVal.str "y"),
              ("sourceStart", JVal.num 0), ("sourceEnd", JVal.num 1)]),
            ("explanation", JVal.str "e"),
            ("confidence", JVal.num 0.8)]]),
         ("originalText", JVal.str "t")]))
    ∧ (0.8 : ℚ) ≠ 0 :=
  ⟨rfl, by norm_num⟩

/-- C3 (amended): a schema-exact parsed document is reconciled to itself —
identifiers, offsets, scores and extra nesting all preserved — provided
its falsifiable values are truthy: non-empty ids, nonzero sourceEnd,
similarity and confidence, and a non-empty originalText; a zero sourceEnd,
similarity or confidence is replaced by its default instead of preserved
(see the counterexample; a zero sourceStart is preserved because its
default is 0 as well). -/
theorem C3_roundtrip_amended (cs gs ds : List JVal) (t inp aiOut : String)
    (fF fC fG fD : Nat → String)
    (hc : ∀ c ∈ cs, ∃ fs, c = JVal.obj fs
       ∧ (∃ s, fs.lookup "id" = some (JVal.str s) ∧ s ≠ "")
       ∧ (∃ q, fs.lookup "sourceStart" = some (JVal.num q))
       ∧ (∃ q, fs.lookup "sourceEnd" = some (JVal.num q) ∧ q ≠ 0))
    (hg : ∀ g ∈ gs, ∃ fs, g = JVal.obj fs
       ∧ (∃ s, fs.lookup "id" = some (JVal.str s) ∧ s ≠ "")
       ∧ (∃ q, fs.lookup "similarity" = some (JVal.num q) ∧ q ≠ 0))
    (hd : ∀ d ∈ ds, ∃ fs, d = JVal.obj fs
       ∧ (∃ s, fs.lookup "id" = some (JVal.str s) ∧ s ≠ "")
       ∧ (∃ q, fs.lookup "confidence" = some (JVal.num q) ∧ q ≠ 0))
    (ht : t ≠ "") :
    reconcile (some (JVal.obj
        [("constraints", JVal.arr cs), ("redundantGroups", JVal.arr gs),
         ("contradictions", JVal.arr ds), ("originalText", JVal.str t)]))
      aiOut inp fF fC fG fD
    = Except.ok (JVal.obj
        [("constraints", JVal.arr cs), ("redundantGroups", JVal.arr gs),
         ("contradictions", JVal.arr ds), ("originalText", JVal.str t)]) := by
  have hallc : ∀ x ∈ cs, ∀ j, normConstraint inp (fC j) x = .ok x := by
    intro x hx j
    obtain ⟨fs, rfl, h1, h2, h3⟩ := hc x hx
    exact normConstraint_preserved inp (fC j) fs h1 h2 h3
  have hallg : ∀ x ∈ gs, ∀ j, normGroup (fG j) x = .ok x := by
    intro x hx j
    obtain ⟨fs, rfl, h1, h2⟩ := hg x hx
    exact normGroup_preserved (fG j) fs h1 h2
  have halld : ∀ x ∈ ds, ∀ j, normContradiction (fD j) x = .ok x := by
    intro x hx j
    obtain ⟨fs, rfl, h1, h2⟩ := hd x hx
    exact normContradiction_preserved (fD j) fs h1 h2
  have hm1 : jsMapArr (fun i c => normConstraint inp (fC i) c)
      (jsOr (List.lookup "constraints"
        [("constraints", JVal.arr cs), ("redundantGroups", JVal.arr gs),
         ("contradictions", JVal.arr ds), ("originalText", JVal.str t)])
        (JVal.arr [])) = Except.ok cs :=
    mapElems_of_fixed _ cs hallc 0
  have hm2 : jsMapArr (fun i g => normGroup (fG i) g)
      (jsOr (List.lookup "redundantGroups"
        [("constraints", JVal.arr cs), ("redundantGroups", JVal.arr gs),
         ("contradictions", JVal.arr ds), ("originalText", JVal.str t)])
        (JVal.arr [])) = Except.ok gs :=
    mapElems_of_fixed _ gs hallg 0
  have hm3 : jsMapArr (fun i d => normContradiction (fD i) d)
      (jsOr (List.lookup "contradictions"
        [("constraints", JVal.arr cs), ("redundantGroups", JVal.arr gs),
         ("contradictions", JVal.arr ds), ("originalText", JVal.str t)])
        (JVal.arr [])) = Except.ok ds :=
    mapElems_of_fixed _ ds halld 0
  rw [reconcile_some_obj, hm1, hm2, hm3,
    show List.lookup "originalText"
        [("constraints", JVal.arr cs), ("redundantGroups", JVal.arr gs),
         ("contradictions", JVal.arr ds), ("originalText", JVal.str t)]
      = some (JVal.str t) from rfl,
    jsOr_str_of_ne t _ ht]

theorem C3_roundtrip_amended_witness :
    reconcile (some (JVal.obj
        [("constraints", JVal.arr [JVal.obj
           [("id", JVal.str "c1"), ("text", JVal.str "x"),
            ("sourceStart", JVal.num 0), ("sourceEnd", JVal.num 4)]]),
         ("redundantGroups", JVal.arr []),
         ("contradictions", JVal.arr []),
         ("originalText", JVal.str "body")])) "" "body"
        (fun _ => "u") (fun _ => "u") (fun _ => "u") (fun _ => "u")
      = Except.ok (JVal.obj
        [("constraints", JVal.arr [JVal.obj
           [("id", JVal.str "c1"), ("text", JVal.str "x"),
            ("sourceStart", JVal.num 0), ("sourceEnd", JVal.num 4)]]),
         ("redundantGroups", JVal.arr []),
         ("contradictions", JVal.arr []),
         ("originalText", JVal.str "body")]) := by
  apply C3_roundtrip_amended
  · intro c hc
    rw [List.mem_singleton] at hc
    subst hc
    exact ⟨_, rfl, ⟨"c1", rfl, by decide⟩, ⟨0, rfl⟩, ⟨4, rfl, by norm_num⟩⟩
  · intro g hg
    simp at hg
  · intro d hd
    simp at hd
  · decide

/-! ## Claim C4: the line-oriented fallback on parse failure -/

theorem handler_200_of_parse_fail (env : Env) (fF fC fG fD : Nat → String)
    (pn tIn : String) (pv : ProviderInfo)
    (hm : env.httpMethod = "POST") (hb : env.body = some (pn, tIn))
    (hl : AI_PROVIDERS.lookup pn = some pv)
    (hk : (env.envVars pv.envKey).getD "" ≠ "")
    (hf : env.fetchOk = true)
    (hp : env.jparse (stripFence (trimS env.rawAnswer)) = none) :
    (handler env fF fC fG fD).statusCode = 200 := by
  obtain ⟨cs2, hrec⟩ :=
    reconcile_none_shape (stripFence (trimS env.rawAnswer)) tIn fF fC fG fD
  unfold handler
  simp only [hm, hb, hl, hf, hp, hk, ne_eq, not_true_eq_false, if_false,
    not_false_eq_true, Bool.not_true, Bool.false_eq_true, ite_false, ite_true,
    eq_self_iff_true]
  rw [hrec]

/-- C4 (counterexample): the model answer is the single line consisting of
a minus sign directly followed by the letter a; it is not valid JSON, the
line begins with a bullet marker, and the fallback turns it into one
constraint — but the marker is not stripped (the stripping regular
expression requires a whitespace character right after the marker at the
very start of the raw line), so the constraint text is the whole line. -/
theorem C4_marker_not_stripped_counterexample :
    (reconcile none "-a" "txt"
        (fun i => "u" ++ toString i) (fun _ => "v") (fun _ => "v") (fun _ => "v")
      = Except.ok (JVal.obj
        [("constraints", JVal.arr [JVal.obj
          [("id", JVal.str "u0"), ("text", JVal.str "-a"),
           ("sourceStart", JVal.num 0), ("sourceEnd", JVal.num 3)]]),
         ("redundantGroups", JVal.arr []),
         ("contradictions", JVal.arr []),
         ("originalText", JVal.str "txt")]))
    ∧ ("-a" : String) ≠ "a" :=
  ⟨rfl, by decide⟩

/-- C4 (amended): when the model answer fails JSON parsing the handler
does not fail — every line whose trimmed form begins with a bullet
marker becomes one constraint carrying a synthesized identifier and the
span from 0 to the length of the input text, redundantGroups and
contradictions are empty, originalText is the input text, and the
request still completes with status 200; however the marker (with one
following whitespace character) is stripped from the constraint text only
when the raw line begins with the marker directly followed by whitespace
— otherwise the trimmed line is kept with its marker (see the
counterexample). -/
theorem C4_amended_fallback :
    (∀ (aiOut t : String) (fF fC fG fD : Nat → String),
        (∀ i, fF i ≠ "") →
        reconcile none aiOut t fF fC fG fD = Except.ok (JVal.obj
          [("constraints", JVal.arr (fallbackConstraints aiOut t fF)),
           ("redundantGroups", JVal.arr []),
           ("contradictions", JVal.arr []),
           ("originalText", JVal.str t)]))
    ∧ (∀ (t fresh : String) (line : List Char),
        jGetField (fallbackConstraint t fresh line) "sourceStart"
            = some (JVal.num 0)
        ∧ jGetField (fallbackConstraint t fresh line) "sourceEnd"
            = some (JVal.num (t.length : ℚ))
        ∧ jGetField (fallbackConstraint t fresh line) "id"
            = some (JVal.str fresh))
    ∧ (∀ (env : Env) (fF fC fG fD : Nat → String) (pn tIn : String)
        (pv : ProviderInfo),
        env.httpMethod = "POST" → env.body = some (pn, tIn) →
        AI_PROVIDERS.lookup pn = some pv →
        (env.envVars pv.envKey).getD "" ≠ "" →
        env.fetchOk = true →
        env.jparse (stripFence (trimS env.rawAnswer)) = none →
        (handler env fF fC fG fD).statusCode = 200) := by
  refine ⟨?_, ?_, ?_⟩
  · intro aiOut t fF fC fG fD hF
    exact reconcile_none_eval aiOut t fF fC fG fD hF
  · intro t fresh line
    exact ⟨rfl, rfl, rfl⟩
  · intro env fF fC fG fD pn tIn pv hm hb hl hk hf hp
    exact handler_200_of_parse_fail env fF fC fG fD pn tIn pv hm hb hl hk hf hp

theorem C4_amended_fallback_witness :
    (reconcile none "- a\nnoise" "txt"
        (fun _ => "u") (fun _ => "u") (fun _ => "u") (fun _ => "u")
      = Except.ok (JVal.obj
        [("constraints", JVal.arr [JVal.obj
          [("id", JVal.str "u"), ("text", JVal.str "a"),
           ("sourceStart", JVal.num 0), ("sourceEnd", JVal.num 3)]]),
         ("redundantGroups", JVal.arr []),
         ("contradictions", JVal.arr []),
         ("originalText", JVal.str "txt")]))
    ∧ jGetField (fallbackConstraint "txt" "u" ("- a").data) "sourceEnd"
        = some (JVal.num (("txt" : String).length : ℚ))
    ∧ (handler ⟨"POST", some ("OpenAI", "text in"), fun _ => some "k", true,
          "no json here", fun _ => none⟩
        (fun _ => "u") (fun _ => "u") (fun _ => "u") (fun _ => "u")).statusCode
      = 200 := by
  refine ⟨?_, ?_, ?_⟩
  · have h := C4_amended_fallback.1 "- a\nnoise" "txt"
      (fun _ => "u") (fun _ => "u") (fun _ => "u") (fun _ => "u")
      (by intro i; simp)
    exact h.trans (by rfl)
  · exact (C4_amended_fallback.2.1 "txt" "u" ("- a").data).2.1
  · exact C4_amended_fallback.2.2
      ⟨"POST", some ("OpenAI", "text in"), fun _ => some "k", true,
        "no json here", fun _ => none⟩
      (fun _ => "u") (fun _ => "u") (fun _ => "u") (fun _ => "u")
      "OpenAI" "text in"
      ⟨"https://api.openai.com/v1/chat/completions", "gpt-4o-mini",
        "OPENAI_API_KEY"⟩
      rfl rfl rfl (by decide) rfl rfl

/-! ## Claim C9: cross-origin headers on every response -/

/-- C9 (counterexample): the 405 response for a non-POST request carries
only Content-Type and Access-Control-Allow-Origin; it has no
Access-Control-Allow-Headers (nor Allow-Methods) header. -/
theorem C9_missing_cors_counterexample :
    (handler ⟨"GET", none, fun _ => none, false, "", fun _ => none⟩
        (fun _ => "u") (fun _ => "u") (fun _ => "u") (fun _ => "u")).statusCode
      = 405
    ∧ (handler ⟨"GET", none, fun _ => none, false, "", fun _ => none⟩
        (fun _ => "u") (fun _ => "u") (fun _ => "u")
        (fun _ => "u")).headers.lookup "Access-Control-Allow-Headers" = none :=
  ⟨rfl, rfl⟩

/-- C9 (amended): every response of the handler carries
Access-Control-Allow-Origin star; but only the 200 success response
additionally carries Access-Control-Allow-Headers Content-Type and
Access-Control-Allow-Methods POST, OPTIONS — the 405, 400 and 500
responses carry neither of those two headers. -/
theorem C9_amended_cors (env : Env) (fF fC fG fD : Nat → String) :
    (handler env fF fC fG fD).headers.lookup "Access-Control-Allow-Origin"
      = some "*"
    ∧ ((handler env fF fC fG fD).statusCode = 200 →
       (handler env fF fC fG fD).headers.lookup "Access-Control-Allow-Headers"
          = some "Content-Type"
       ∧ (handler env fF fC fG fD).headers.lookup "Access-Control-Allow-Methods"
          = some "POST, OPTIONS") := by
  unfold handler
  simp only []
  split
  · exact ⟨by simp [baseHeaders, List.lookup], fun h => by simp at h⟩
  · split
    · exact ⟨by simp [err500, baseHeaders, List.lookup],
        fun h => by simp [err500] at h⟩
    · split
      · exact ⟨by simp [baseHeaders, List.lookup], fun h => by simp at h⟩
      · split
        · exact ⟨by simp [baseHeaders, List.lookup], fun h => by simp at h⟩
        · split
          · exact ⟨by simp [err500, baseHeaders, List.lookup],
              fun h => by simp [err500] at h⟩
          · split
            · exact ⟨by simp [err500, baseHeaders, List.lookup],
                fun h => by simp [err500] at h⟩
            · exact ⟨by simp [baseHeaders, List.lookup],
                fun _ => ⟨by simp [baseHeaders, List.lookup],
                          by simp [baseHeaders, List.lookup]⟩⟩

theorem C9_amended_cors_witness :
    (handler ⟨"POST", some ("OpenAI", "t"), fun _ => some "k", true, "",
        fun _ => none⟩
      (fun _ => "u") (fun _ => "u") (fun _ => "u")
      (fun _ => "u")).headers.lookup "Access-Control-Allow-Origin" = some "*"
    ∧ (handler ⟨"POST", some ("OpenAI", "t"), fun _ => some "k", true, "",
        fun _ => none⟩
      (fun _ => "u") (fun _ => "u") (fun _ => "u")
      (fun _ => "u")).headers.lookup "Access-Control-Allow-Headers"
        = some "Content-Type"
    ∧ (handler ⟨"GET", none, fun _ => none, false, "", fun _ => none⟩
      (fun _ => "u") (fun _ => "u") (fun _ => "u")
      (fun _ => "u")).headers.lookup "Access-Control-Allow-Origin" = some "*" := by
  have h200 := C9_amended_cors
    ⟨"POST", some ("OpenAI", "t"), fun _ => some "k", true, "", fun _ => none⟩
    (fun _ => "u") (fun _ => "u") (fun _ => "u") (fun _ => "u")
  have h405 := C9_amended_cors
    ⟨"GET", none, fun _ => none, false, "", fun _ => none⟩
    (fun _ => "u") (fun _ => "u") (fun _ => "u") (fun _ => "u")
  exact ⟨h200.1, (h200.2 rfl).1, h405.1⟩
